import Mathlib

/-!
Shallow embedding of `src/libwaypoint_follower/src/libwaypoint_follower.cpp`
(waypoint tracking core of the autoware_ai_common repository).

Geometry is modelled over the real numbers: the C++ code's `double`
arithmetic is idealised as exact real arithmetic, `DBL_MAX` sentinels used
as "plus infinity before the first iteration" are modelled as `Option ℝ`
with `none` standing for the not-yet-initialised maximum, and `atan2 y x`
is modelled as the argument of the complex number `x + y i`, which is the
mathematical function `atan2` computes.
-/

noncomputable section

namespace WaypointFollower

open Real

/-- Source `geometry_msgs::Point`: a 3-D position. -/
structure Point where
  x : ℝ
  y : ℝ
  z : ℝ

/-- Source `geometry_msgs::Quaternion`: an orientation, assumed to be a unit
rotation quaternion (spec §3 data model). -/
structure Quaternion where
  x : ℝ
  y : ℝ
  z : ℝ
  w : ℝ

/-- Source `geometry_msgs::Pose`: position plus orientation. -/
structure Pose where
  position : Point
  orientation : Quaternion

/-- Source `autoware_msgs::Waypoint`, restricted to the fields the tracking core
reads: `pose.pose` and the signed speed `twist.twist.linear.x`. -/
structure Waypoint where
  pose : Pose
  velocity : ℝ

/-- Source `autoware_msgs::Lane`, restricted to its `waypoints` vector. -/
structure Lane where
  waypoints : List Waypoint

instance : Inhabited Point := ⟨⟨0, 0, 0⟩⟩
instance : Inhabited Quaternion := ⟨⟨0, 0, 0, 1⟩⟩
instance : Inhabited Pose := ⟨⟨default, default⟩⟩
instance : Inhabited Waypoint := ⟨⟨default, 0⟩⟩

/-- Element access `current_path.waypoints[i]` (all loops in the source keep `i` in
range, so the default value is never observed along the modelled paths). -/
def wpAt (path : Lane) (i : ℕ) : Waypoint :=
  path.waypoints.getD i default

/-- Position `current_path.waypoints[i].pose.pose.position`. -/
def wpPos (path : Lane) (i : ℕ) : Point :=
  (wpAt path i).pose.position

/-- Signed speed `current_path.waypoints[i].twist.twist.linear.x`. -/
def wpVel (path : Lane) (i : ℕ) : ℝ :=
  (wpAt path i).velocity

/-- Source `getPlaneDistance`: Euclidean distance with the z components zeroed
(source lines 146-153). -/
def getPlaneDistance (target1 target2 : Point) : ℝ :=
  Real.sqrt ((target1.x - target2.x) ^ 2 + (target1.y - target2.y) ^ 2)

/-- The C function `atan2(y, x)` from `<cmath>`, modelled as the argument of `x + y i`. -/
def atan2 (y x : ℝ) : ℝ :=
  Complex.arg ⟨x, y⟩

/-- Model of the external collaborator `tf::getYaw` (spec §6
`extractYaw`): the yaw of a unit rotation quaternion. -/
def getYaw (q : Quaternion) : ℝ :=
  atan2 (2 * (q.w * q.z + q.x * q.y)) (1 - 2 * (q.y ^ 2 + q.z ^ 2))

/-- First loop of `normalizeAngle` (source lines 634-637):
`while (res > M_PI) res -= 2*M_PI`. -/
def normalizeSub (res : ℝ) : ℝ :=
  if Real.pi < res then normalizeSub (res - 2 * Real.pi) else res
termination_by (⌈(res - Real.pi) / (2 * Real.pi)⌉).toNat
decreasing_by
  have hpi := Real.pi_pos
  have h1 : (0 : ℝ) < (res - Real.pi) / (2 * Real.pi) := by
    apply div_pos (by linarith) (by linarith)
  have h2 : (0 : ℤ) < ⌈(res - Real.pi) / (2 * Real.pi)⌉ := Int.ceil_pos.mpr h1
  have h3 : (res - 2 * Real.pi - Real.pi) / (2 * Real.pi)
      = (res - Real.pi) / (2 * Real.pi) - 1 := by
    field_simp
    ring
  have h4 : ⌈(res - 2 * Real.pi - Real.pi) / (2 * Real.pi)⌉
      = ⌈(res - Real.pi) / (2 * Real.pi)⌉ - 1 := by
    rw [h3, Int.ceil_sub_one]
  omega

/-- Second loop of `normalizeAngle` (source lines 638-641):
`while (res < -M_PI) res += 2*M_PI`. -/
def normalizeAdd (res : ℝ) : ℝ :=
  if res < -Real.pi then normalizeAdd (res + 2 * Real.pi) else res
termination_by (⌈(-Real.pi - res) / (2 * Real.pi)⌉).toNat
decreasing_by
  have hpi := Real.pi_pos
  have h1 : (0 : ℝ) < (-Real.pi - res) / (2 * Real.pi) := by
    apply div_pos (by linarith) (by linarith)
  have h2 : (0 : ℤ) < ⌈(-Real.pi - res) / (2 * Real.pi)⌉ := Int.ceil_pos.mpr h1
  have h3 : (-Real.pi - (res + 2 * Real.pi)) / (2 * Real.pi)
      = (-Real.pi - res) / (2 * Real.pi) - 1 := by
    field_simp
    ring
  have h4 : ⌈(-Real.pi - (res + 2 * Real.pi)) / (2 * Real.pi)⌉
      = ⌈(-Real.pi - res) / (2 * Real.pi)⌉ - 1 := by
    rw [h3, Int.ceil_sub_one]
  omega

/-- Source `normalizeAngle` (source lines 631-644). -/
def normalizeAngle (euler : ℝ) : ℝ :=
  normalizeAdd (normalizeSub euler)

theorem normalizeSub_of_le {res : ℝ} (h : res ≤ Real.pi) :
    normalizeSub res = res := by
  rw [normalizeSub, if_neg (by linarith)]

theorem normalizeAdd_of_le {res : ℝ} (h : -Real.pi ≤ res) :
    normalizeAdd res = res := by
  rw [normalizeAdd, if_neg (by linarith)]

/-- An angle already in `[-π, π]` is left unchanged by `normalizeAngle`. -/
theorem normalizeAngle_of_mem {θ : ℝ} (h1 : -Real.pi ≤ θ) (h2 : θ ≤ Real.pi) :
    normalizeAngle θ = θ := by
  rw [normalizeAngle, normalizeSub_of_le h2, normalizeAdd_of_le h1]

theorem normalizeSub_le (res : ℝ) : normalizeSub res ≤ Real.pi := by
  induction res using normalizeSub.induct with
  | case1 res h ih => rwa [normalizeSub, if_pos h]
  | case2 res h => rw [normalizeSub, if_neg h]; linarith [not_lt.mp h]

theorem normalizeSub_gt {res : ℝ} (h : Real.pi < res) :
    -Real.pi < normalizeSub res := by
  induction res using normalizeSub.induct with
  | case1 res h' ih =>
    rw [normalizeSub, if_pos h']
    rcases lt_or_le Real.pi (res - 2 * Real.pi) with h2 | h2
    · exact ih h2
    · rw [normalizeSub_of_le h2]
      have := Real.pi_pos
      linarith
  | case2 res h' => exact absurd h h'

theorem normalizeSub_sub (res : ℝ) :
    ∃ k : ℤ, normalizeSub res = res - 2 * Real.pi * k := by
  induction res using normalizeSub.induct with
  | case1 res h ih =>
    obtain ⟨k, hk⟩ := ih
    rw [normalizeSub, if_pos h, hk]
    exact ⟨k + 1, by push_cast; ring⟩
  | case2 res h =>
    rw [normalizeSub, if_neg h]
    exact ⟨0, by push_cast; ring⟩

theorem normalizeAdd_ge (res : ℝ) : -Real.pi ≤ normalizeAdd res := by
  induction res using normalizeAdd.induct with
  | case1 res h ih => rwa [normalizeAdd, if_pos h]
  | case2 res h => rw [normalizeAdd, if_neg h]; linarith [not_lt.mp h]

theorem normalizeAdd_lt {res : ℝ} (h : res < -Real.pi) :
    normalizeAdd res < Real.pi := by
  induction res using normalizeAdd.induct with
  | case1 res h' ih =>
    rw [normalizeAdd, if_pos h']
    rcases lt_or_le (res + 2 * Real.pi) (-Real.pi) with h2 | h2
    · exact ih h2
    · rw [normalizeAdd_of_le h2]
      have := Real.pi_pos
      linarith
  | case2 res h' => exact absurd h h'

theorem normalizeAdd_sub (res : ℝ) :
    ∃ k : ℤ, normalizeAdd res = res + 2 * Real.pi * k := by
  induction res using normalizeAdd.induct with
  | case1 res h ih =>
    obtain ⟨k, hk⟩ := ih
    rw [normalizeAdd, if_pos h, hk]
    exact ⟨k + 1, by push_cast; ring⟩
  | case2 res h =>
    rw [normalizeAdd, if_neg h]
    exact ⟨0, by push_cast; ring⟩

/-! ## Local heading estimator: `getWaypointYaw` (source lines 183-250) -/

/-- The raw bearing of the incoming segment, waypoint `i-1` to waypoint
`i`: `atan2(behind_to_current.y, behind_to_current.x)` (source line 200). -/
def rawBehindToCurrentYaw (path : Lane) (i : ℕ) : ℝ :=
  atan2 ((wpPos path i).y - (wpPos path (i - 1)).y)
    ((wpPos path i).x - (wpPos path (i - 1)).x)

/-- The raw bearing of the outgoing segment, waypoint `i` to waypoint
`i+1`: `atan2(current_to_front.y, current_to_front.x)` (source line 201). -/
def rawCurrentToFrontYaw (path : Lane) (i : ℕ) : ℝ :=
  atan2 ((wpPos path (i + 1)).y - (wpPos path i).y)
    ((wpPos path (i + 1)).x - (wpPos path i).x)

/-- The incoming bearing after the velocity-sign correction of source
lines 203-206: rotated by π when the speed stored at waypoint `i` (the
segment's destination end) is negative. -/
def behindToCurrentYaw (path : Lane) (i : ℕ) : ℝ :=
  if wpVel path i < 0 then normalizeAngle (rawBehindToCurrentYaw path i + Real.pi)
  else rawBehindToCurrentYaw path i

/-- The outgoing bearing after the velocity-sign correction of source
lines 207-210: rotated by π when the speed stored at waypoint `i+1` (the
segment's destination end) is negative. -/
def currentToFrontYaw (path : Lane) (i : ℕ) : ℝ :=
  if wpVel path (i + 1) < 0 then normalizeAngle (rawCurrentToFrontYaw path i + Real.pi)
  else rawCurrentToFrontYaw path i

/-- Source `getWaypointYaw` (source lines 183-250).  For an interior index the
sign-corrected incoming and outgoing bearings are blended (bisector when
their normalized difference is below π in magnitude, otherwise the
outgoing bearing); a boundary index uses its single adjacent segment; a
degenerate path falls back to the stored orientation. -/
def getWaypointYaw (path : Lane) (i : ℕ) : ℝ :=
  if 0 < i ∧ i < path.waypoints.length - 1 then
    if |normalizeAngle (currentToFrontYaw path i - behindToCurrentYaw path i)| < Real.pi
    then normalizeAngle (behindToCurrentYaw path i +
      normalizeAngle (currentToFrontYaw path i - behindToCurrentYaw path i) / 2)
    else currentToFrontYaw path i
  else if 0 < i then
    behindToCurrentYaw path i
  else if i < path.waypoints.length - 1 then
    currentToFrontYaw path i
  else
    getYaw (wpAt path i).pose.orientation

/-! ## Lane direction detector (source lines 252-297) -/

inductive LaneDirection where
  | Forward
  | Backward
  | Error
deriving DecidableEq

/-- Model of the external collaborator chain
`tf::poseMsgToTF` / `inverse()` / `transform * p`
(spec §6 `relativeCoordinate`): the conjugate (inverse, for a unit
quaternion) of the pose's orientation applied to the translated point. -/
def quatConjRotate (q : Quaternion) (p : Point) : Point :=
  ⟨(1 - 2 * (q.y ^ 2 + q.z ^ 2)) * p.x + 2 * (q.x * q.y + q.w * q.z) * p.y
      + 2 * (q.x * q.z - q.w * q.y) * p.z,
    2 * (q.x * q.y - q.w * q.z) * p.x + (1 - 2 * (q.x ^ 2 + q.z ^ 2)) * p.y
      + 2 * (q.y * q.z + q.w * q.x) * p.z,
    2 * (q.x * q.z + q.w * q.y) * p.x + 2 * (q.y * q.z - q.w * q.x) * p.y
      + (1 - 2 * (q.x ^ 2 + q.y ^ 2)) * p.z⟩

/-- Source `calcRelativeCoordinate` (source lines 116-129): the point expressed
in the frame of `current_pose`. -/
def calcRelativeCoordinate (point_msg : Point) (current_pose : Pose) : Point :=
  quatConjRotate current_pose.orientation
    ⟨point_msg.x - current_pose.position.x,
      point_msg.y - current_pose.position.y,
      point_msg.z - current_pose.position.z⟩

/-- Loop body of `getLaneDirectionByPosition` (source lines 268-279),
walking consecutive waypoint pairs. -/
def laneDirectionByPositionAux : List Waypoint → LaneDirection
  | [] => LaneDirection.Error
  | [_] => LaneDirection.Error
  | w1 :: w2 :: rest =>
    let rlt_x := (calcRelativeCoordinate w2.pose.position w1.pose).x
    if |rlt_x| < 1 / 1000 then laneDirectionByPositionAux (w2 :: rest)
    else if rlt_x < 0 then LaneDirection.Backward
    else LaneDirection.Forward

/-- Source `getLaneDirectionByPosition` (source lines 261-281). -/
def getLaneDirectionByPosition (current_path : Lane) : LaneDirection :=
  laneDirectionByPositionAux current_path.waypoints

/-- Loop body of `getLaneDirectionByVelocity` (source lines 286-295). -/
def laneDirectionByVelocityAux : List Waypoint → LaneDirection
  | [] => LaneDirection.Error
  | w :: rest =>
    if |w.velocity| < 1 / 100 then laneDirectionByVelocityAux rest
    else if w.velocity < 0 then LaneDirection.Backward
    else LaneDirection.Forward

/-- Source `getLaneDirectionByVelocity` (source lines 283-297). -/
def getLaneDirectionByVelocity (current_path : Lane) : LaneDirection :=
  laneDirectionByVelocityAux current_path.waypoints

/-- Source `getLaneDirection` (source lines 252-259). -/
def getLaneDirection (current_path : Lane) : LaneDirection :=
  let pos_ret := getLaneDirectionByPosition current_path
  let vel_ret := getLaneDirectionByVelocity current_path
  if pos_ret ≠ vel_ret ∧ pos_ret ≠ LaneDirection.Error ∧ vel_ret ≠ LaneDirection.Error
  then LaneDirection.Error
  else if pos_ret ≠ LaneDirection.Error then pos_ret
  else vel_ret

/-! ## Cold-start locator: `getClosestIndex` (source lines 327-374) -/

/-- Body of the gated first pass (source lines 341-357): state is the pair
`(min_distance, closest_index)`, started at `(5.0, -1)`. -/
def closestGatedStep (path : Lane) (pose : Pose) (s : ℝ × ℤ) (i : ℕ) : ℝ × ℤ :=
  let distance := getPlaneDistance (wpPos path i) pose.position
  let angle_diff := normalizeAngle (getWaypointYaw path i - getYaw pose.orientation)
  if distance < s.1 ∧ |angle_diff| < Real.pi / 2 then (distance, (i : ℤ)) else s

/-- Body of the distance-only fallback pass (source lines 363-372): the
minimum tracker starts at `DBL_MAX`, modelled as `none` (every planar
distance of the idealised reals compares below it). -/
def closestFallbackStep (path : Lane) (pose : Pose) (s : Option ℝ × ℤ) (i : ℕ) :
    Option ℝ × ℤ :=
  let distance := getPlaneDistance (wpPos path i) pose.position
  match s.1 with
  | none => (some distance, (i : ℤ))
  | some m => if distance < m then (some distance, (i : ℤ)) else s

/-- Source `getClosestIndex` (source lines 327-374). -/
def getClosestIndex (current_path : Lane) (current_pose : Pose) : ℤ :=
  if current_path.waypoints.length < 2 then -1
  else
    let r1 := (List.range current_path.waypoints.length).foldl
      (closestGatedStep current_path current_pose) (5, -1)
    if r1.2 ≠ -1 then r1.2
    else ((List.range current_path.waypoints.length).foldl
      (closestFallbackStep current_path current_pose) (none, -1)).2

/-! ## Warm index tracker: `updateCurrentIndex` (source lines 376-462) -/

/-- Phase-1 offset search loop of `updateCurrentIndex` (source lines
403-434).  `i` is the loop counter (always marching forward), `off` the
accumulated signed offset; the loop runs while `i < path_size - 1`. -/
def offsetLoop (path : Lane) (pose : Pose) (i : ℕ) (off : ℤ) : ℤ :=
  if i + 1 < path.waypoints.length then
    if wpVel path i * wpVel path (i + 1) < 0 ∧ 0 ≤ off then
      offsetLoop path pose (i + 1) (off + 1)
    else if wpVel path i * wpVel path (i + 1) > 0 ∧
        getPlaneDistance pose.position (wpPos path (i + 1)) <
          getPlaneDistance pose.position (wpPos path i) ∧ 0 ≤ off then
      offsetLoop path pose (i + 1) (off + 1)
    else if wpVel path (i - 1) * wpVel path i > 0 ∧
        getPlaneDistance pose.position (wpPos path (i - 1)) <
          getPlaneDistance pose.position (wpPos path i) ∧ off ≤ 0 then
      offsetLoop path pose (i + 1) (off - 1)
    else off
  else off
termination_by path.waypoints.length - i
decreasing_by all_goals omega

/-- Phase-2 forward minimum scan of `updateCurrentIndex` (source lines
439-456): `prev` is the previous distance, starting at `DBL_MAX`, modelled
as `none`.  Returns `some (i - 1)` when the distance first strictly
increases (the loop's `break` that assigns `next_index`), `none` when the
loop runs off the end of the path leaving `next_index` untouched. -/
def scanLoop (path : Lane) (pose : Pose) (i : ℕ) (prev : Option ℝ) : Option ℤ :=
  if i < path.waypoints.length then
    match prev with
    | none =>
      scanLoop path pose (i + 1) (some (getPlaneDistance (wpPos path i) pose.position))
    | some p =>
      if getPlaneDistance (wpPos path i) pose.position > p then some ((i : ℤ) - 1)
      else scanLoop path pose (i + 1) (some (getPlaneDistance (wpPos path i) pose.position))
  else none
termination_by path.waypoints.length - i
decreasing_by all_goals omega

/-- The start index of the phase-2 scan: `previousIndex`, shifted by the
phase-1 offset when the previous index is strictly interior (source lines
400-437), then clamped with
`std::min(std::max(0, start_index), path_size - 1)`. -/
def scanStartIndex (path : Lane) (pose : Pose) (current_index : ℤ) : ℤ :=
  min (max 0 (if current_index < (path.waypoints.length : ℤ) - 1 ∧ 0 < current_index
      then current_index + offsetLoop path pose current_index.toNat 0
      else current_index))
    ((path.waypoints.length : ℤ) - 1)

/-- Source `updateCurrentIndex` (source lines 376-462).  (The inner
`if (path_size < 1) return -1;` of source lines 396-399 is unreachable:
the branch is only entered when the length is at least 2.) -/
def updateCurrentIndex (current_path : Lane) (current_pose : Pose)
    (current_index : ℤ) : ℤ :=
  if current_path.waypoints.length < 2 ∨
      current_index > (current_path.waypoints.length : ℤ) - 1 then -1
  else if current_index < 0 then getClosestIndex current_path current_pose
  else
    min (max 0 (match scanLoop current_path current_pose
          (scanStartIndex current_path current_pose current_index).toNat none with
        | some j => j
        | none => current_index))
      ((current_path.waypoints.length : ℤ) - 1)

/-! ## Spec-side formulations used by the refinement claims -/

/-- Modelled from the spec §4.2 as the claim reads it: the incoming
segment's bearing, rotated by π when the signed speed at the segment's
*source* waypoint (index `i - 1`) is negative. -/
def behindToCurrentYawSpecSrc (path : Lane) (i : ℕ) : ℝ :=
  if wpVel path (i - 1) < 0 then normalizeAngle (rawBehindToCurrentYaw path i + Real.pi)
  else rawBehindToCurrentYaw path i

/-- Modelled from the spec §4.2 as the claim reads it: the outgoing
segment's bearing, rotated by π when the signed speed at the segment's
*source* waypoint (index `i`) is negative. -/
def currentToFrontYawSpecSrc (path : Lane) (i : ℕ) : ℝ :=
  if wpVel path i < 0 then normalizeAngle (rawCurrentToFrontYaw path i + Real.pi)
  else rawCurrentToFrontYaw path i

/-- Spec §4.2 interior blend of two sign-corrected bearings: the bisector
when the normalized difference is below π in magnitude, otherwise the
outgoing bearing. -/
def interiorYawBlend (b f : ℝ) : ℝ :=
  let d := normalizeAngle (f - b)
  if |d| < Real.pi then normalizeAngle (b + d / 2) else f

/-! ## Concrete paths and poses used as witnesses and counterexamples -/

/-- A waypoint at planar position `(x, y)` with identity orientation and
signed speed `v`. -/
def wpt (x y v : ℝ) : Waypoint :=
  ⟨⟨⟨x, y, 0⟩, ⟨0, 0, 0, 1⟩⟩, v⟩

/-- A pose at planar position `(x, y)` with identity orientation. -/
def poseAt (x y : ℝ) : Pose :=
  ⟨⟨x, y, 0⟩, ⟨0, 0, 0, 1⟩⟩

/-- One waypoint: a degenerate path. -/
def lane1 : Lane := ⟨[wpt 0 0 0]⟩

/-- Two waypoints on the x axis, both at zero speed. -/
def lane2 : Lane := ⟨[wpt 0 0 0, wpt 1 0 0]⟩

/-- Three waypoints forming a 90-degree left turn at index 1, with a
negative speed stored at index 0 and positive speeds after it. -/
def lane3 : Lane := ⟨[wpt 0 0 (-1), wpt 1 0 1, wpt 1 1 1]⟩

/-- Three collinear waypoints approaching the origin. -/
def laneA : Lane := ⟨[wpt 3 0 1, wpt 2 0 1, wpt 1 0 1]⟩

/-- The pose at the origin. -/
def poseO : Pose := poseAt 0 0

/-- Six waypoints on the x axis with two switchbacks
(speeds -1, -1, 1, 1, -1, -1). -/
def laneB : Lane :=
  ⟨[wpt (-3) 0 (-1), wpt (-3) 0 (-1), wpt (-2) 0 1, wpt (-2) 0 1,
    wpt (-1) 0 (-1), wpt 0 0 (-1)]⟩

/-- The pose at `(-4, 0)`, one unit before `laneB`'s first waypoint. -/
def poseB : Pose := poseAt (-4) 0

/-- Planar distance is symmetric in its two arguments. -/
theorem getPlaneDistance_comm (p q : Point) :
    getPlaneDistance p q = getPlaneDistance q p := by
  unfold getPlaneDistance
  ring_nf

/-- Evaluation helper: a planar distance whose squared value is known. -/
theorem getPlaneDistance_eval {p q : Point} (c : ℝ) (hc : 0 ≤ c)
    (h : (p.x - q.x) ^ 2 + (p.y - q.y) ^ 2 = c ^ 2) :
    getPlaneDistance p q = c := by
  rw [getPlaneDistance, h]
  exact Real.sqrt_sq hc

/-! ## C9: `normalizeAngle` range -/

/-- C9 counterexample: at input `-π` the code returns `-π` itself, which
lies outside the claimed half-open interval `(-π, π]`. -/
theorem C9_counterexample :
    normalizeAngle (-Real.pi) = -Real.pi ∧
      ¬ (-Real.pi < normalizeAngle (-Real.pi)) := by
  have h : normalizeAngle (-Real.pi) = -Real.pi :=
    normalizeAngle_of_mem le_rfl (by linarith [Real.pi_pos])
  exact ⟨h, by rw [h]; exact lt_irrefl _⟩

/-- C9 (amended): for every input angle, `normalizeAngle` returns a value
in the closed interval `[-π, π]` (the endpoint `-π` is reachable), and the
result differs from the input by an integer multiple of 2π. -/
theorem C9_normalizeAngle_range (euler : ℝ) :
    -Real.pi ≤ normalizeAngle euler ∧ normalizeAngle euler ≤ Real.pi ∧
      ∃ k : ℤ, normalizeAngle euler = euler + 2 * Real.pi * k := by
  have hsub_le : normalizeSub euler ≤ Real.pi := normalizeSub_le euler
  obtain ⟨k1, hk1⟩ := normalizeSub_sub euler
  obtain ⟨k2, hk2⟩ := normalizeAdd_sub (normalizeSub euler)
  refine ⟨normalizeAdd_ge _, ?_, ?_⟩
  · rcases le_or_lt (-Real.pi) (normalizeSub euler) with h | h
    · rw [normalizeAngle, normalizeAdd_of_le h]
      exact hsub_le
    · exact le_of_lt (normalizeAdd_lt h)
  · exact ⟨k2 - k1, by rw [normalizeAngle, hk2, hk1]; push_cast; ring⟩

/-! ## C4: `getLaneDirection` conflict combination -/

/-- C4: `getLaneDirection` returns `Error` exactly when the positional and
velocity estimates are both non-`Error` and differ; otherwise it returns
the positional estimate when that is non-`Error`, and the velocity
estimate when the positional estimate is `Error`. -/
theorem C4_getLaneDirection_combine (current_path : Lane) :
    getLaneDirection current_path =
      if getLaneDirectionByPosition current_path ≠ LaneDirection.Error ∧
          getLaneDirectionByVelocity current_path ≠ LaneDirection.Error ∧
          getLaneDirectionByPosition current_path ≠ getLaneDirectionByVelocity current_path
      then LaneDirection.Error
      else if getLaneDirectionByPosition current_path ≠ LaneDirection.Error
      then getLaneDirectionByPosition current_path
      else getLaneDirectionByVelocity current_path := by
  cases hp : getLaneDirectionByPosition current_path <;>
    cases hv : getLaneDirectionByVelocity current_path <;>
      simp [getLaneDirection, hp, hv]

/-! ## C2: sentinel and cold-start delegation of `updateCurrentIndex` -/

/-- C2: `updateCurrentIndex` returns the sentinel -1 whenever the path has
fewer than 2 waypoints or the supplied previous index exceeds the last
valid index; and with at least 2 waypoints and the uninitialized sentinel
-1 as the previous index, it returns exactly `getClosestIndex path pose`. -/
theorem C2_updateCurrentIndex_sentinel (current_path : Lane) (current_pose : Pose)
    (current_index : ℤ) :
    ((current_path.waypoints.length < 2 ∨
        current_index > (current_path.waypoints.length : ℤ) - 1) →
      updateCurrentIndex current_path current_pose current_index = -1) ∧
    ((2 ≤ current_path.waypoints.length ∧ current_index = -1) →
      updateCurrentIndex current_path current_pose current_index =
        getClosestIndex current_path current_pose) := by
  constructor
  · intro h
    rw [updateCurrentIndex, if_pos h]
  · rintro ⟨h2, hidx⟩
    subst hidx
    rw [updateCurrentIndex, if_neg, if_pos (by norm_num)]
    push_neg
    constructor
    · omega
    · have : (2 : ℤ) ≤ (current_path.waypoints.length : ℤ) := by exact_mod_cast h2
      omega

/-- C2 witness: the two branches at concrete inputs: a one-waypoint path
yields -1, and a two-waypoint path with previous index -1 delegates to the
cold-start locator. -/
theorem C2_witness :
    updateCurrentIndex lane1 poseO 0 = -1 ∧
      updateCurrentIndex lane2 poseO (-1) = getClosestIndex lane2 poseO := by
  constructor
  · exact (C2_updateCurrentIndex_sentinel lane1 poseO 0).1 (Or.inl (by norm_num [lane1]))
  · exact (C2_updateCurrentIndex_sentinel lane2 poseO (-1)).2 ⟨by norm_num [lane2], rfl⟩

/-! ## C10: every negative previous index triggers a cold start -/

/-- C10: `updateCurrentIndex` treats every strictly negative previous
index as the uninitialized sentinel: with at least 2 waypoints, any
`current_index < 0` delegates to `getClosestIndex`. -/
theorem C10_negative_index_cold_start (current_path : Lane) (current_pose : Pose)
    (current_index : ℤ) (h2 : 2 ≤ current_path.waypoints.length)
    (hneg : current_index < 0) :
    updateCurrentIndex current_path current_pose current_index =
      getClosestIndex current_path current_pose := by
  rw [updateCurrentIndex, if_neg, if_pos hneg]
  push_neg
  constructor
  · omega
  · have : (2 : ℤ) ≤ (current_path.waypoints.length : ℤ) := by exact_mod_cast h2
    omega

/-- C10 witness: previous index -5 on a two-waypoint path cold-starts. -/
theorem C10_witness :
    updateCurrentIndex lane2 poseO (-5) = getClosestIndex lane2 poseO :=
  C10_negative_index_cold_start lane2 poseO (-5) (by norm_num [lane2]) (by norm_num)

/-! ## C3: `getClosestIndex` always returns a valid index or the sentinel -/

theorem gatedFold_inv (path : Lane) (pose : Pose) (n : ℤ) :
    ∀ (l : List ℕ) (s : ℝ × ℤ), (∀ x ∈ l, (x : ℤ) < n) →
      (s.2 = -1 ∨ (0 ≤ s.2 ∧ s.2 < n)) →
      ((l.foldl (closestGatedStep path pose) s).2 = -1 ∨
        (0 ≤ (l.foldl (closestGatedStep path pose) s).2 ∧
          (l.foldl (closestGatedStep path pose) s).2 < n)) := by
  intro l
  induction l with
  | nil => intro s _ hs; exact hs
  | cons x t ih =>
    intro s hl hs
    rw [List.foldl_cons]
    apply ih _ (fun y hy => hl y (List.mem_cons_of_mem x hy))
    rw [closestGatedStep]
    split
    · exact Or.inr ⟨Int.ofNat_nonneg x, hl x (List.mem_cons_self x t)⟩
    · exact hs

theorem fallbackFold_inv (path : Lane) (pose : Pose) (n : ℤ) :
    ∀ (l : List ℕ) (s : Option ℝ × ℤ), (∀ x ∈ l, (x : ℤ) < n) →
      (0 ≤ s.2 ∧ s.2 < n) →
      (0 ≤ (l.foldl (closestFallbackStep path pose) s).2 ∧
        (l.foldl (closestFallbackStep path pose) s).2 < n) := by
  intro l
  induction l with
  | nil => intro s _ hs; exact hs
  | cons x t ih =>
    intro s hl hs
    rw [List.foldl_cons]
    apply ih _ (fun y hy => hl y (List.mem_cons_of_mem x hy))
    obtain ⟨s1, s2⟩ := s
    cases s1 with
    | none => exact ⟨Int.ofNat_nonneg x, hl x (List.mem_cons_self x t)⟩
    | some m =>
      simp only [closestFallbackStep]
      split
      · exact ⟨Int.ofNat_nonneg x, hl x (List.mem_cons_self x t)⟩
      · exact hs

/-- C3: for a path with at least 2 waypoints, `getClosestIndex` returns an
index in `[0, length)` for every pose (the distance-only fallback
guarantees this even when the gated pass fails); for a path with fewer
than 2 waypoints it returns the sentinel -1. -/
theorem C3_getClosestIndex_range (current_path : Lane) (current_pose : Pose) :
    (current_path.waypoints.length < 2 →
      getClosestIndex current_path current_pose = -1) ∧
    (2 ≤ current_path.waypoints.length →
      0 ≤ getClosestIndex current_path current_pose ∧
        getClosestIndex current_path current_pose <
          (current_path.waypoints.length : ℤ)) := by
  constructor
  · intro h
    rw [getClosestIndex, if_pos h]
  · intro h2
    have hrange : ∀ x ∈ List.range current_path.waypoints.length,
        (x : ℤ) < (current_path.waypoints.length : ℤ) := by
      intro x hx
      exact_mod_cast List.mem_range.mp hx
    simp only [getClosestIndex]
    rw [if_neg (by omega)]
    by_cases hne :
        ((List.range current_path.waypoints.length).foldl
          (closestGatedStep current_path current_pose) (5, -1)).2 ≠ -1
    · rw [if_pos hne]
      rcases gatedFold_inv current_path current_pose _
          (List.range current_path.waypoints.length) (5, -1) hrange
          (Or.inl rfl) with h | h
      · exact absurd h hne
      · exact h
    · rw [if_neg hne]
      obtain ⟨m, hm⟩ : ∃ m, current_path.waypoints.length = m + 1 :=
        ⟨current_path.waypoints.length - 1, by omega⟩
      rw [hm, List.range_succ_eq_map, List.foldl_cons]
      apply fallbackFold_inv
      · intro x hx
        rcases List.mem_map.mp hx with ⟨k, hk, rfl⟩
        have := List.mem_range.mp hk
        push_cast
        omega
      · constructor
        · rw [closestFallbackStep]
          exact Int.ofNat_nonneg 0
        · rw [closestFallbackStep]
          show (0 : ℤ) < ((m + 1 : ℕ) : ℤ)
          push_cast
          omega

/-- C3 witness: a one-waypoint path yields the sentinel, and the
two-waypoint path `lane2` yields an index in `[0, 2)`. -/
theorem C3_witness :
    getClosestIndex lane1 poseO = -1 ∧
      (0 ≤ getClosestIndex lane2 poseO ∧
        getClosestIndex lane2 poseO < (lane2.waypoints.length : ℤ)) :=
  ⟨(C3_getClosestIndex_range lane1 poseO).1 (by norm_num [lane1]),
    (C3_getClosestIndex_range lane2 poseO).2 (by norm_num [lane2])⟩

/-! ## C7: the phase-1 offset never changes sign within one call -/

/-- C7: within a single run of the phase-1 offset-search loop the
accumulated offset is monotone in one direction: once negative it never
increases again (no `+1` after having become negative), once positive it
never decreases again (no `-1` after having become positive); and the
backward excursion is bounded by the number of loop iterations remaining,
`(length - 1) - i`. -/
theorem C7_offset_sign_invariant (path : Lane) (pose : Pose) (i : ℕ) (off : ℤ) :
    (off < 0 → offsetLoop path pose i off ≤ off) ∧
    (0 < off → off ≤ offsetLoop path pose i off) ∧
    (off - ((path.waypoints.length - 1 - i : ℕ) : ℤ) ≤ offsetLoop path pose i off) := by
  induction i, off using offsetLoop.induct path pose with
  | case1 i off hlt h1 ih =>
    rw [offsetLoop, if_pos hlt, if_pos h1]
    refine ⟨fun hneg => absurd h1.2 (by omega), fun hpos => ?_, ?_⟩
    · have := ih.2.1 (by omega)
      omega
    · have := ih.2.2
      omega
  | case2 i off hlt h1 h2 ih =>
    rw [offsetLoop, if_pos hlt, if_neg h1, if_pos h2]
    refine ⟨fun hneg => absurd h2.2.2 (by omega), fun hpos => ?_, ?_⟩
    · have := ih.2.1 (by omega)
      omega
    · have := ih.2.2
      omega
  | case3 i off hlt h1 h2 h3 ih =>
    rw [offsetLoop, if_pos hlt, if_neg h1, if_neg h2, if_pos h3]
    refine ⟨fun hneg => ?_, fun hpos => absurd h3.2.2 (by omega), ?_⟩
    · have := ih.1 (by omega)
      omega
    · have := ih.2.2
      omega
  | case4 i off hlt h1 h2 h3 =>
    rw [offsetLoop, if_pos hlt, if_neg h1, if_neg h2, if_neg h3]
    refine ⟨fun _ => le_rfl, fun _ => le_rfl, by omega⟩
  | case5 i off hlt =>
    rw [offsetLoop, if_neg hlt]
    refine ⟨fun _ => le_rfl, fun _ => le_rfl, by omega⟩

/-- C7 witness: concrete instances of all three conjuncts on `lane2`
(whose zero speeds stop the loop immediately). -/
theorem C7_witness :
    offsetLoop lane2 poseO 0 (-1) ≤ -1 ∧
      1 ≤ offsetLoop lane2 poseO 0 1 ∧
      (0 : ℤ) - ((lane2.waypoints.length - 1 - 0 : ℕ) : ℤ) ≤ offsetLoop lane2 poseO 0 0 :=
  ⟨(C7_offset_sign_invariant lane2 poseO 0 (-1)).1 (by norm_num),
    (C7_offset_sign_invariant lane2 poseO 0 1).2.1 (by norm_num),
    (C7_offset_sign_invariant lane2 poseO 0 0).2.2⟩

/-! ## Step lemmas for evaluating the warm-tracker loops -/

theorem scanLoop_step_none {path : Lane} {pose : Pose} {i : ℕ}
    (h : i < path.waypoints.length) :
    scanLoop path pose i none =
      scanLoop path pose (i + 1) (some (getPlaneDistance (wpPos path i) pose.position)) := by
  rw [scanLoop.eq_def, if_pos h]

theorem scanLoop_step_break {path : Lane} {pose : Pose} {i : ℕ} {p : ℝ}
    (h : i < path.waypoints.length)
    (hgt : getPlaneDistance (wpPos path i) pose.position > p) :
    scanLoop path pose i (some p) = some ((i : ℤ) - 1) := by
  rw [scanLoop.eq_def, if_pos h]
  exact if_pos hgt

theorem scanLoop_step_cont {path : Lane} {pose : Pose} {i : ℕ} {p : ℝ}
    (h : i < path.waypoints.length)
    (hle : ¬ getPlaneDistance (wpPos path i) pose.position > p) :
    scanLoop path pose i (some p) =
      scanLoop path pose (i + 1) (some (getPlaneDistance (wpPos path i) pose.position)) := by
  rw [scanLoop.eq_def, if_pos h]
  exact if_neg hle

theorem scanLoop_step_end {path : Lane} {pose : Pose} {i : ℕ} {p : Option ℝ}
    (h : ¬ i < path.waypoints.length) :
    scanLoop path pose i p = none := by
  rw [scanLoop.eq_def, if_neg h]

theorem offsetLoop_step_end {path : Lane} {pose : Pose} {i : ℕ} {off : ℤ}
    (h : ¬ i + 1 < path.waypoints.length) :
    offsetLoop path pose i off = off := by
  rw [offsetLoop, if_neg h]

theorem offsetLoop_step_switchback {path : Lane} {pose : Pose} {i : ℕ} {off : ℤ}
    (h : i + 1 < path.waypoints.length)
    (h1 : wpVel path i * wpVel path (i + 1) < 0 ∧ 0 ≤ off) :
    offsetLoop path pose i off = offsetLoop path pose (i + 1) (off + 1) := by
  rw [offsetLoop, if_pos h, if_pos h1]

theorem offsetLoop_step_forward {path : Lane} {pose : Pose} {i : ℕ} {off : ℤ}
    (h : i + 1 < path.waypoints.length)
    (h1 : ¬ (wpVel path i * wpVel path (i + 1) < 0 ∧ 0 ≤ off))
    (h2 : wpVel path i * wpVel path (i + 1) > 0 ∧
      getPlaneDistance pose.position (wpPos path (i + 1)) <
        getPlaneDistance pose.position (wpPos path i) ∧ 0 ≤ off) :
    offsetLoop path pose i off = offsetLoop path pose (i + 1) (off + 1) := by
  rw [offsetLoop, if_pos h, if_neg h1, if_pos h2]

theorem offsetLoop_step_backward {path : Lane} {pose : Pose} {i : ℕ} {off : ℤ}
    (h : i + 1 < path.waypoints.length)
    (h1 : ¬ (wpVel path i * wpVel path (i + 1) < 0 ∧ 0 ≤ off))
    (h2 : ¬ (wpVel path i * wpVel path (i + 1) > 0 ∧
      getPlaneDistance pose.position (wpPos path (i + 1)) <
        getPlaneDistance pose.position (wpPos path i) ∧ 0 ≤ off))
    (h3 : wpVel path (i - 1) * wpVel path i > 0 ∧
      getPlaneDistance pose.position (wpPos path (i - 1)) <
        getPlaneDistance pose.position (wpPos path i) ∧ off ≤ 0) :
    offsetLoop path pose i off = offsetLoop path pose (i + 1) (off - 1) := by
  rw [offsetLoop, if_pos h, if_neg h1, if_neg h2, if_pos h3]

theorem offsetLoop_step_stop {path : Lane} {pose : Pose} {i : ℕ} {off : ℤ}
    (h : i + 1 < path.waypoints.length)
    (h1 : ¬ (wpVel path i * wpVel path (i + 1) < 0 ∧ 0 ≤ off))
    (h2 : ¬ (wpVel path i * wpVel path (i + 1) > 0 ∧
      getPlaneDistance pose.position (wpPos path (i + 1)) <
        getPlaneDistance pose.position (wpPos path i) ∧ 0 ≤ off))
    (h3 : ¬ (wpVel path (i - 1) * wpVel path i > 0 ∧
      getPlaneDistance pose.position (wpPos path (i - 1)) <
        getPlaneDistance pose.position (wpPos path i) ∧ off ≤ 0)) :
    offsetLoop path pose i off = off := by
  rw [offsetLoop, if_pos h, if_neg h1, if_neg h2, if_neg h3]

/-! ## C1: behaviour of the forward minimum scan when distance never
increases -/

/-- If the planar distance never strictly increases from one index to the
next from `s` to the end of the path, the phase-2 scan loop started at or
after `s` never breaks. -/
theorem scanLoop_of_noincrease (path : Lane) (pose : Pose) (s : ℕ)
    (hmono : ∀ i : ℕ, s ≤ i → i + 1 < path.waypoints.length →
      getPlaneDistance (wpPos path (i + 1)) pose.position ≤
        getPlaneDistance (wpPos path i) pose.position) :
    ∀ (i : ℕ) (prev : Option ℝ), s ≤ i →
      (i < path.waypoints.length → ∀ q, prev = some q →
        getPlaneDistance (wpPos path i) pose.position ≤ q) →
      scanLoop path pose i prev = none := by
  intro i prev
  induction i, prev using scanLoop.induct path pose with
  | case1 i hlt ih =>
    intro hsi _
    rw [scanLoop_step_none hlt]
    apply ih (by omega)
    intro hlt1 q hq
    injection hq with hq
    rw [← hq]
    exact hmono i hsi hlt1
  | case2 i hlt p hgt =>
    intro hsi hprev
    exact absurd (hprev hlt p rfl) (not_le.mpr hgt)
  | case3 i hlt p hgt ih =>
    intro hsi _
    rw [scanLoop_step_cont hlt hgt]
    apply ih (by omega)
    intro hlt1 q hq
    injection hq with hq
    rw [← hq]
    exact hmono i hsi hlt1
  | case4 i p hlt =>
    intro _ _
    exact scanLoop_step_end hlt

/-- C1 (amended): with a valid path and a previous index in range, if the
planar distance never strictly increases between consecutive indices from
the scan's start index through the end of the path, the phase-2 loop runs
off the end without assigning `next_index`, so `updateCurrentIndex`
returns the *previous* index unchanged — not the last index of the path. -/
theorem C1_noincrease_returns_previous (path : Lane) (pose : Pose) (c : ℤ)
    (h2 : 2 ≤ path.waypoints.length) (h0 : 0 ≤ c)
    (h1 : c ≤ (path.waypoints.length : ℤ) - 1)
    (hmono : ∀ i : ℕ, (scanStartIndex path pose c).toNat ≤ i →
      i + 1 < path.waypoints.length →
      getPlaneDistance (wpPos path (i + 1)) pose.position ≤
        getPlaneDistance (wpPos path i) pose.position) :
    updateCurrentIndex path pose c = c := by
  have hlen : (2 : ℤ) ≤ (path.waypoints.length : ℤ) := by exact_mod_cast h2
  rw [updateCurrentIndex, if_neg (by push_neg; exact ⟨by omega, by omega⟩),
    if_neg (not_lt.mpr h0)]
  rw [scanLoop_of_noincrease path pose _ hmono _ none le_rfl
    (fun _ q hq => by cases hq)]
  show (0 ⊔ c) ⊓ ((path.waypoints.length : ℤ) - 1) = c
  rw [sup_eq_right.mpr h0, inf_eq_left.mpr h1]

/-- Distances from the origin pose to `laneA`'s three waypoints. -/
theorem dA0 : getPlaneDistance (wpPos laneA 0) poseO.position = 3 :=
  getPlaneDistance_eval 3 (by norm_num)
    (by show ((3 : ℝ) - 0) ^ 2 + ((0 : ℝ) - 0) ^ 2 = 3 ^ 2; norm_num)

theorem dA1 : getPlaneDistance (wpPos laneA 1) poseO.position = 2 :=
  getPlaneDistance_eval 2 (by norm_num)
    (by show ((2 : ℝ) - 0) ^ 2 + ((0 : ℝ) - 0) ^ 2 = 2 ^ 2; norm_num)

theorem dA2 : getPlaneDistance (wpPos laneA 2) poseO.position = 1 :=
  getPlaneDistance_eval 1 (by norm_num)
    (by show ((1 : ℝ) - 0) ^ 2 + ((0 : ℝ) - 0) ^ 2 = 1 ^ 2; norm_num)

theorem laneA_length : laneA.waypoints.length = 3 := rfl

theorem scanStartIndex_laneA : scanStartIndex laneA poseO 0 = 0 := by
  rw [scanStartIndex]
  norm_num [laneA_length]

/-- Direct evaluation of the phase-2 scan on `laneA` from index 0: the
distances 3, 2, 1 never increase, so the loop never breaks. -/
theorem scanLoop_laneA : scanLoop laneA poseO 0 none = none := by
  have h3 : laneA.waypoints.length = 3 := laneA_length
  rw [scanLoop_step_none (by omega), dA0]
  rw [scanLoop_step_cont (by omega) (by rw [dA1]; norm_num), dA1]
  rw [scanLoop_step_cont (by omega) (by rw [dA2]; norm_num)]
  exact scanLoop_step_end (by omega)

/-- C1 counterexample: on the three-waypoint path `laneA` approached from
the origin, the scanned distances (3, 2, 1 from scan start 0) never
increase, yet `updateCurrentIndex` from previous index 0 returns 0, not
the last index 2 the claim demands. -/
theorem C1_counterexample :
    2 ≤ laneA.waypoints.length ∧
    scanStartIndex laneA poseO 0 = 0 ∧
    getPlaneDistance (wpPos laneA 1) poseO.position ≤
      getPlaneDistance (wpPos laneA 0) poseO.position ∧
    getPlaneDistance (wpPos laneA 2) poseO.position ≤
      getPlaneDistance (wpPos laneA 1) poseO.position ∧
    updateCurrentIndex laneA poseO 0 = 0 ∧
    (0 : ℤ) ≠ (laneA.waypoints.length : ℤ) - 1 := by
  refine ⟨by rw [laneA_length]; omega, scanStartIndex_laneA, ?_, ?_, ?_, ?_⟩
  · rw [dA0, dA1]; norm_num
  · rw [dA1, dA2]; norm_num
  · rw [updateCurrentIndex, if_neg (by rw [laneA_length]; norm_num),
      if_neg (by norm_num)]
    rw [scanStartIndex_laneA]
    show (0 ⊔ (match scanLoop laneA poseO (0 : ℤ).toNat none with
        | some j => j
        | none => (0 : ℤ))) ⊓ ((laneA.waypoints.length : ℤ) - 1) = 0
    rw [show (0 : ℤ).toNat = 0 from rfl, scanLoop_laneA, laneA_length]
    norm_num
  · rw [laneA_length]; norm_num

/-- C1 witness (for the amended theorem): the same concrete configuration,
obtained by applying the amended theorem at `laneA`. -/
theorem C1_witness : updateCurrentIndex laneA poseO 0 = 0 := by
  apply C1_noincrease_returns_previous laneA poseO 0
    (by rw [laneA_length]; omega) le_rfl (by rw [laneA_length]; norm_num)
  intro i hsi hlt
  rw [laneA_length] at hlt
  have hi : i = 0 ∨ i = 1 := by omega
  rcases hi with rfl | rfl
  · rw [dA0, dA1]; norm_num
  · rw [dA1, dA2]; norm_num

/-! ## C5 and C6: the heading estimator at an interior index -/

theorem atan2_zero_one : atan2 0 1 = 0 := by
  have h : (⟨1, 0⟩ : ℂ) = 1 := Complex.ext (by simp) (by simp)
  rw [atan2, h, Complex.arg_one]

theorem atan2_one_zero : atan2 1 0 = Real.pi / 2 := by
  have h : (⟨0, 1⟩ : ℂ) = Complex.I := Complex.ext (by simp) (by simp)
  rw [atan2, h, Complex.arg_I]

theorem lane3_length : lane3.waypoints.length = 3 := rfl

theorem rawBehind_lane3 : rawBehindToCurrentYaw lane3 1 = 0 := by
  show atan2 ((0 : ℝ) - 0) ((1 : ℝ) - 0) = 0
  rw [show (0 : ℝ) - 0 = 0 by norm_num, show (1 : ℝ) - 0 = 1 by norm_num]
  exact atan2_zero_one

theorem rawFront_lane3 : rawCurrentToFrontYaw lane3 1 = Real.pi / 2 := by
  show atan2 ((1 : ℝ) - 0) ((1 : ℝ) - 1) = Real.pi / 2
  rw [show (1 : ℝ) - 0 = 1 by norm_num, show (1 : ℝ) - 1 = 0 by norm_num]
  exact atan2_one_zero

theorem behind_lane3 : behindToCurrentYaw lane3 1 = 0 := by
  rw [behindToCurrentYaw, if_neg (show ¬ wpVel lane3 1 < 0 from by
    show ¬ (1 : ℝ) < 0; norm_num)]
  exact rawBehind_lane3

theorem front_lane3 : currentToFrontYaw lane3 1 = Real.pi / 2 := by
  rw [currentToFrontYaw, if_neg (show ¬ wpVel lane3 (1 + 1) < 0 from by
    show ¬ (1 : ℝ) < 0; norm_num)]
  exact rawFront_lane3

theorem diff_lane3 :
    normalizeAngle (currentToFrontYaw lane3 1 - behindToCurrentYaw lane3 1) =
      Real.pi / 2 := by
  rw [front_lane3, behind_lane3, show Real.pi / 2 - 0 = Real.pi / 2 by ring]
  exact normalizeAngle_of_mem (by linarith [Real.pi_pos]) (by linarith [Real.pi_pos])

/-- The code's heading at the interior index of `lane3`: the bisector of
the bearings 0 and π/2, i.e. π/4 (no bearing is flipped because the
speeds at the destination waypoints, indices 1 and 2, are positive). -/
theorem getWaypointYaw_lane3 : getWaypointYaw lane3 1 = Real.pi / 4 := by
  rw [getWaypointYaw,
    if_pos (show 0 < 1 ∧ 1 < lane3.waypoints.length - 1 from
      ⟨one_pos, by rw [lane3_length]; norm_num⟩),
    diff_lane3,
    if_pos (by rw [abs_of_pos (half_pos Real.pi_pos)]; linarith [Real.pi_pos]),
    behind_lane3, show (0 : ℝ) + Real.pi / 2 / 2 = Real.pi / 4 by ring]
  exact normalizeAngle_of_mem (by linarith [Real.pi_pos]) (by linarith [Real.pi_pos])

/-- The heading the spec's source-end flip rule would produce at the same
index: the incoming bearing is flipped to π because the speed at the
*source* waypoint 0 is negative, giving the bisector 3π/4. -/
theorem specSrcYaw_lane3 :
    interiorYawBlend (behindToCurrentYawSpecSrc lane3 1)
      (currentToFrontYawSpecSrc lane3 1) = 3 * Real.pi / 4 := by
  have hb : behindToCurrentYawSpecSrc lane3 1 = Real.pi := by
    rw [behindToCurrentYawSpecSrc, if_pos (show wpVel lane3 (1 - 1) < 0 from by
      show (-1 : ℝ) < 0; norm_num), rawBehind_lane3,
      show (0 : ℝ) + Real.pi = Real.pi by ring]
    exact normalizeAngle_of_mem (by linarith [Real.pi_pos]) le_rfl
  have hf : currentToFrontYawSpecSrc lane3 1 = Real.pi / 2 := by
    rw [currentToFrontYawSpecSrc, if_neg (show ¬ wpVel lane3 1 < 0 from by
      show ¬ (1 : ℝ) < 0; norm_num)]
    exact rawFront_lane3
  have hd : normalizeAngle (Real.pi / 2 - Real.pi) = -(Real.pi / 2) := by
    rw [show Real.pi / 2 - Real.pi = -(Real.pi / 2) by ring]
    exact normalizeAngle_of_mem (by linarith [Real.pi_pos]) (by linarith [Real.pi_pos])
  rw [interiorYawBlend, hb, hf]
  simp only [hd]
  rw [if_pos (by rw [abs_neg, abs_of_pos (half_pos Real.pi_pos)]; linarith [Real.pi_pos]),
    show Real.pi + -(Real.pi / 2) / 2 = 3 * Real.pi / 4 by ring]
  exact normalizeAngle_of_mem (by linarith [Real.pi_pos]) (by linarith [Real.pi_pos])

/-- C5 counterexample: at the interior index 1 of `lane3` (speed -1 at
waypoint 0, +1 afterwards), the code's heading (π/4 — no flip, because it
consults the destination waypoints' speeds) differs from the heading the
claimed source-end flip rule yields (3π/4). -/
theorem C5_counterexample :
    (0 < 1 ∧ 1 < lane3.waypoints.length - 1) ∧
      getWaypointYaw lane3 1 ≠
        interiorYawBlend (behindToCurrentYawSpecSrc lane3 1)
          (currentToFrontYawSpecSrc lane3 1) := by
  refine ⟨⟨one_pos, by rw [lane3_length]; norm_num⟩, ?_⟩
  rw [getWaypointYaw_lane3, specSrcYaw_lane3]
  intro h
  have := Real.pi_pos
  linarith

/-- C5 (amended): at an interior index the incoming segment's bearing is
rotated by π iff the signed speed at the segment's *destination* waypoint
(index `i`) is negative, and the outgoing segment's bearing iff the speed
at its destination (index `i + 1`) is negative; the heading is the spec's
blend of the two bearings so corrected. -/
theorem C5_flip_at_destination (path : Lane) (i : ℕ) (hi : 0 < i)
    (hi2 : i < path.waypoints.length - 1) :
    getWaypointYaw path i =
      interiorYawBlend
        (if wpVel path i < 0
          then normalizeAngle (rawBehindToCurrentYaw path i + Real.pi)
          else rawBehindToCurrentYaw path i)
        (if wpVel path (i + 1) < 0
          then normalizeAngle (rawCurrentToFrontYaw path i + Real.pi)
          else rawCurrentToFrontYaw path i) := by
  rw [getWaypointYaw, if_pos ⟨hi, hi2⟩]
  rfl

/-- C5 witness: the amended flip rule applied at the interior index of
`lane3`. -/
theorem C5_witness :
    getWaypointYaw lane3 1 =
      interiorYawBlend
        (if wpVel lane3 1 < 0
          then normalizeAngle (rawBehindToCurrentYaw lane3 1 + Real.pi)
          else rawBehindToCurrentYaw lane3 1)
        (if wpVel lane3 (1 + 1) < 0
          then normalizeAngle (rawCurrentToFrontYaw lane3 1 + Real.pi)
          else rawCurrentToFrontYaw lane3 1) :=
  C5_flip_at_destination lane3 1 one_pos (by rw [lane3_length]; norm_num)

/-- C6: at an interior index, when the normalized signed difference
between the sign-corrected outgoing and incoming bearings has absolute
value strictly below π, the returned heading is the incoming bearing
advanced by half that difference, normalized (the angular bisector). -/
theorem C6_interior_bisector (path : Lane) (i : ℕ) (hi : 0 < i)
    (hi2 : i < path.waypoints.length - 1)
    (hd : |normalizeAngle (currentToFrontYaw path i - behindToCurrentYaw path i)|
      < Real.pi) :
    getWaypointYaw path i =
      normalizeAngle (behindToCurrentYaw path i +
        normalizeAngle (currentToFrontYaw path i - behindToCurrentYaw path i) / 2) := by
  rw [getWaypointYaw, if_pos ⟨hi, hi2⟩, if_pos hd]

/-- C6 witness: the 90-degree turn at the middle of the 3-waypoint path
`lane3` yields the entry bearing 0 advanced by 45 degrees, i.e. π/4. -/
theorem C6_witness : getWaypointYaw lane3 1 = Real.pi / 4 := by
  have h := C6_interior_bisector lane3 1 one_pos (by rw [lane3_length]; norm_num)
    (by rw [diff_lane3, abs_of_pos (half_pos Real.pi_pos)]; linarith [Real.pi_pos])
  rw [h, diff_lane3, behind_lane3, show (0 : ℝ) + Real.pi / 2 / 2 = Real.pi / 4 by ring]
  exact normalizeAngle_of_mem (by linarith [Real.pi_pos]) (by linarith [Real.pi_pos])

/-! ## C8: behaviour of repeated warm updates under a stationary pose -/

/-- Every warm update from a valid previous index returns an index in
`[0, length - 1]`. -/
theorem upd_in_range (path : Lane) (pose : Pose) (c : ℤ)
    (h2 : 2 ≤ path.waypoints.length) (h0 : 0 ≤ c)
    (h1 : c ≤ (path.waypoints.length : ℤ) - 1) :
    0 ≤ updateCurrentIndex path pose c ∧
      updateCurrentIndex path pose c ≤ (path.waypoints.length : ℤ) - 1 := by
  have hlen : (2 : ℤ) ≤ (path.waypoints.length : ℤ) := by exact_mod_cast h2
  rw [updateCurrentIndex, if_neg (by push_neg; exact ⟨by omega, by omega⟩),
    if_neg (not_lt.mpr h0)]
  exact ⟨le_inf le_sup_left (by omega), inf_le_right⟩

/-- The last index of the path is always a fixed point of the warm
update: the phase-1 walk is skipped and the scan, starting at the final
waypoint, runs off the end at once. -/
theorem upd_last_fixed (path : Lane) (pose : Pose)
    (h2 : 2 ≤ path.waypoints.length) :
    updateCurrentIndex path pose ((path.waypoints.length : ℤ) - 1) =
      (path.waypoints.length : ℤ) - 1 := by
  have hlen : (2 : ℤ) ≤ (path.waypoints.length : ℤ) := by exact_mod_cast h2
  rw [updateCurrentIndex, if_neg (by push_neg; exact ⟨by omega, le_rfl⟩),
    if_neg (by omega)]
  have hstart : scanStartIndex path pose ((path.waypoints.length : ℤ) - 1) =
      (path.waypoints.length : ℤ) - 1 := by
    rw [scanStartIndex, if_neg (fun h => lt_irrefl _ h.1),
      sup_eq_right.mpr (by omega), inf_idem]
  rw [hstart]
  have htn : ((path.waypoints.length : ℤ) - 1).toNat = path.waypoints.length - 1 := by
    omega
  rw [htn]
  have hscan : scanLoop path pose (path.waypoints.length - 1) none = none := by
    rw [scanLoop_step_none (by omega)]
    exact scanLoop_step_end (by omega)
  rw [hscan]
  show (0 ⊔ ((path.waypoints.length : ℤ) - 1)) ⊓ ((path.waypoints.length : ℤ) - 1) =
    (path.waypoints.length : ℤ) - 1
  rw [sup_eq_right.mpr (by omega), inf_idem]

/-- On a minimal two-waypoint path every valid previous index is already a
fixed point of the warm update. -/
theorem upd_two_fixed (path : Lane) (pose : Pose) (c : ℤ)
    (hlen2 : path.waypoints.length = 2) (h0 : 0 ≤ c) (h1 : c ≤ 1) :
    updateCurrentIndex path pose c = c := by
  have hc : c = 0 ∨ c = 1 := by omega
  rcases hc with rfl | rfl
  · rw [updateCurrentIndex, if_neg (by rw [hlen2]; norm_num),
      if_neg (by norm_num)]
    have hstart : scanStartIndex path pose 0 = 0 := by
      rw [scanStartIndex, if_neg (fun h => lt_irrefl _ h.2),
        sup_idem, inf_eq_left.mpr (by rw [hlen2]; norm_num)]
    rw [hstart, show (0 : ℤ).toNat = 0 from rfl]
    rw [scanLoop_step_none (by omega)]
    by_cases hgt : getPlaneDistance (wpPos path 1) pose.position >
        getPlaneDistance (wpPos path 0) pose.position
    · rw [scanLoop_step_break (by omega) hgt]
      rw [hlen2]
      norm_num
    · rw [scanLoop_step_cont (by omega) hgt,
        scanLoop_step_end (by rw [hlen2]; norm_num)]
      rw [hlen2]
      norm_num
  · have h := upd_last_fixed path pose (by omega)
    rw [hlen2] at h
    norm_num at h
    exact h

/-- C8 (amended): repeated warm updates with a stationary pose need not
reach a fixed index within one additional call (see the counterexample);
what does hold is that every update from a valid index stays in
`[0, length - 1]`, that the last index is always a fixed point, and that
on a minimal two-waypoint path every valid index is already a fixed
point. -/
theorem C8_stability :
    (∀ (path : Lane) (pose : Pose) (c : ℤ), 2 ≤ path.waypoints.length →
      0 ≤ c → c ≤ (path.waypoints.length : ℤ) - 1 →
      0 ≤ updateCurrentIndex path pose c ∧
        updateCurrentIndex path pose c ≤ (path.waypoints.length : ℤ) - 1) ∧
    (∀ (path : Lane) (pose : Pose), 2 ≤ path.waypoints.length →
      updateCurrentIndex path pose ((path.waypoints.length : ℤ) - 1) =
        (path.waypoints.length : ℤ) - 1) ∧
    (∀ (path : Lane) (pose : Pose) (c : ℤ), path.waypoints.length = 2 →
      0 ≤ c → c ≤ 1 → updateCurrentIndex path pose c = c) :=
  ⟨upd_in_range, upd_last_fixed, upd_two_fixed⟩

theorem lane2_length : lane2.waypoints.length = 2 := rfl

/-- C8 witness: the three stability facts instantiated on the concrete
two-waypoint path `lane2`. -/
theorem C8_witness :
    (0 ≤ updateCurrentIndex lane2 poseO 0 ∧
      updateCurrentIndex lane2 poseO 0 ≤ (lane2.waypoints.length : ℤ) - 1) ∧
    updateCurrentIndex lane2 poseO ((lane2.waypoints.length : ℤ) - 1) =
      (lane2.waypoints.length : ℤ) - 1 ∧
    updateCurrentIndex lane2 poseO 0 = 0 :=
  ⟨C8_stability.1 lane2 poseO 0 (by rw [lane2_length]) (by norm_num)
      (by rw [lane2_length]; norm_num),
    C8_stability.2.1 lane2 poseO (by rw [lane2_length]),
    C8_stability.2.2 lane2 poseO 0 lane2_length le_rfl zero_le_one⟩

theorem laneB_length : laneB.waypoints.length = 6 := rfl

/-- Distances from `poseB` to `laneB`'s waypoints, in the scan loop's
argument order. -/
theorem dB0 : getPlaneDistance (wpPos laneB 0) poseB.position = 1 :=
  getPlaneDistance_eval 1 (by norm_num)
    (by show ((-3 : ℝ) - -4) ^ 2 + ((0 : ℝ) - 0) ^ 2 = 1 ^ 2; norm_num)

theorem dB1 : getPlaneDistance (wpPos laneB 1) poseB.position = 1 :=
  getPlaneDistance_eval 1 (by norm_num)
    (by show ((-3 : ℝ) - -4) ^ 2 + ((0 : ℝ) - 0) ^ 2 = 1 ^ 2; norm_num)

theorem dB2 : getPlaneDistance (wpPos laneB 2) poseB.position = 2 :=
  getPlaneDistance_eval 2 (by norm_num)
    (by show ((-2 : ℝ) - -4) ^ 2 + ((0 : ℝ) - 0) ^ 2 = 2 ^ 2; norm_num)

theorem dB3 : getPlaneDistance (wpPos laneB 3) poseB.position = 2 :=
  getPlaneDistance_eval 2 (by norm_num)
    (by show ((-2 : ℝ) - -4) ^ 2 + ((0 : ℝ) - 0) ^ 2 = 2 ^ 2; norm_num)

theorem dB4 : getPlaneDistance (wpPos laneB 4) poseB.position = 3 :=
  getPlaneDistance_eval 3 (by norm_num)
    (by show ((-1 : ℝ) - -4) ^ 2 + ((0 : ℝ) - 0) ^ 2 = 3 ^ 2; norm_num)

theorem dB5 : getPlaneDistance (wpPos laneB 5) poseB.position = 4 :=
  getPlaneDistance_eval 4 (by norm_num)
    (by show ((0 : ℝ) - -4) ^ 2 + ((0 : ℝ) - 0) ^ 2 = 4 ^ 2; norm_num)

/-- The same distances in the offset loop's argument order. -/
theorem dBo2 : getPlaneDistance poseB.position (wpPos laneB 2) = 2 := by
  rw [getPlaneDistance_comm]; exact dB2

theorem dBo3 : getPlaneDistance poseB.position (wpPos laneB 3) = 2 := by
  rw [getPlaneDistance_comm]; exact dB3

theorem dBo4 : getPlaneDistance poseB.position (wpPos laneB 4) = 3 := by
  rw [getPlaneDistance_comm]; exact dB4

theorem dBo5 : getPlaneDistance poseB.position (wpPos laneB 5) = 4 := by
  rw [getPlaneDistance_comm]; exact dB5

theorem upd_laneB_0 : updateCurrentIndex laneB poseB 0 = 1 := by
  rw [updateCurrentIndex, if_neg (by rw [laneB_length]; norm_num),
    if_neg (by norm_num)]
  have hstart : scanStartIndex laneB poseB 0 = 0 := by
    rw [scanStartIndex, if_neg (fun h => lt_irrefl _ h.2),
      sup_idem, inf_eq_left.mpr (by rw [laneB_length]; norm_num)]
  rw [hstart, show (0 : ℤ).toNat = 0 from rfl]
  rw [scanLoop_step_none (by rw [laneB_length]; norm_num), dB0]
  rw [scanLoop_step_cont (by rw [laneB_length]; norm_num) (by rw [dB1]; norm_num), dB1]
  rw [scanLoop_step_break (by rw [laneB_length]; norm_num) (by rw [dB2]; norm_num)]
  rw [laneB_length]
  norm_num

theorem vB0 : wpVel laneB 0 = -1 := rfl
theorem vB1 : wpVel laneB 1 = -1 := rfl
theorem vB2 : wpVel laneB 2 = 1 := rfl
theorem vB3 : wpVel laneB 3 = 1 := rfl
theorem vB4 : wpVel laneB 4 = -1 := rfl
theorem vB5 : wpVel laneB 5 = -1 := rfl

theorem offsetLoop_laneB_1 : offsetLoop laneB poseB 1 0 = 1 := by
  have hstep : offsetLoop laneB poseB 1 0 = offsetLoop laneB poseB 2 1 := by
    have h := @offsetLoop_step_switchback laneB poseB 1 0
      (by rw [laneB_length]; norm_num) ⟨by norm_num [vB1, vB2], le_rfl⟩
    simpa using h
  rw [hstep]
  apply offsetLoop_step_stop (by rw [laneB_length]; norm_num)
  · norm_num [vB2, vB3]
  · norm_num [vB2, vB3, dBo3, dBo2]
  · norm_num [vB1, vB2]

theorem upd_laneB_1 : updateCurrentIndex laneB poseB 1 = 3 := by
  rw [updateCurrentIndex, if_neg (by rw [laneB_length]; norm_num),
    if_neg (by norm_num)]
  have hstart : scanStartIndex laneB poseB 1 = 2 := by
    rw [scanStartIndex,
      if_pos ⟨by rw [laneB_length]; norm_num, by norm_num⟩,
      show (1 : ℤ).toNat = 1 from rfl, offsetLoop_laneB_1]
    norm_num [laneB_length]
  rw [hstart, show (2 : ℤ).toNat = 2 from rfl]
  rw [scanLoop_step_none (by rw [laneB_length]; norm_num), dB2]
  rw [scanLoop_step_cont (by rw [laneB_length]; norm_num) (by rw [dB3]; norm_num), dB3]
  rw [scanLoop_step_break (by rw [laneB_length]; norm_num) (by rw [dB4]; norm_num)]
  rw [laneB_length]
  norm_num

theorem offsetLoop_laneB_3 : offsetLoop laneB poseB 3 0 = 1 := by
  have hstep : offsetLoop laneB poseB 3 0 = offsetLoop laneB poseB 4 1 := by
    have h := @offsetLoop_step_switchback laneB poseB 3 0
      (by rw [laneB_length]; norm_num) ⟨by norm_num [vB3, vB4], le_rfl⟩
    simpa using h
  rw [hstep]
  apply offsetLoop_step_stop (by rw [laneB_length]; norm_num)
  · norm_num [vB4, vB5]
  · norm_num [vB4, vB5, dBo5, dBo4]
  · norm_num [vB3, vB4]

theorem upd_laneB_3 : updateCurrentIndex laneB poseB 3 = 4 := by
  rw [updateCurrentIndex, if_neg (by rw [laneB_length]; norm_num),
    if_neg (by norm_num)]
  have hstart : scanStartIndex laneB poseB 3 = 4 := by
    rw [scanStartIndex,
      if_pos ⟨by rw [laneB_length]; norm_num, by norm_num⟩,
      show (3 : ℤ).toNat = 3 from rfl, offsetLoop_laneB_3]
    norm_num [laneB_length]
  rw [hstart, show (4 : ℤ).toNat = 4 from rfl]
  rw [scanLoop_step_none (by rw [laneB_length]; norm_num), dB4]
  rw [scanLoop_step_break (by rw [laneB_length]; norm_num) (by rw [dB5]; norm_num)]
  rw [laneB_length]
  norm_num

/-- C8 counterexample: on the six-waypoint switchback path `laneB` with
the stationary pose `poseB` and valid previous index 0, the iterates are
`j = update(0) = 1`, `k = update(j) = 3`, but `update(k) = 4 ≠ k`: a fixed
index is not reached within one additional call. -/
theorem C8_counterexample :
    2 ≤ laneB.waypoints.length ∧
    updateCurrentIndex laneB poseB 0 = 1 ∧
    updateCurrentIndex laneB poseB 1 = 3 ∧
    updateCurrentIndex laneB poseB 3 = 4 ∧
    (4 : ℤ) ≠ 3 :=
  ⟨by rw [laneB_length]; omega, upd_laneB_0, upd_laneB_1, upd_laneB_3, by norm_num⟩

end WaypointFollower
